import Mathlib

/-!
Shallow embedding of the `httpreq` request builder (repository `dispatch`,
file `httpreq/request.go`) together with theorems about its validation,
body-resolution, decoration, query, client-selection and dispatch pipeline.

Go strings are modelled as Lean `String` / `List Char`; the ASCII separators
`/` and `:` used by the path-parameter machinery occupy single bytes in
UTF-8 and never occur inside a multi-byte encoded character, so byte-level
splitting/counting in Go coincides with the character-level model.

External collaborators (the net/http transport, url encoding, json
marshalling of an arbitrary Go value, proxy-URL parsing) are not
reimplemented by the repository; they are modelled as an explicit
environment `Env` of oracle functions, and the json marshal outcome of the
opaque `bodyStruct` value is carried inside the field itself.
-/

namespace Dispatch

/-- The constant `ContentTypeJSON`. -/
def ContentTypeJSON : String := "application/json"

/-- The constant `ContentTypeURLENCODED`. -/
def ContentTypeURLENCODED : String := "application/x-www-form-urlencoded"

/-- Does a (segment of a) Go string begin with the path-parameter
indicator `:`?  Models `strings.HasPrefix(s, pathParamIndicator)`. -/
def startsColon (s : List Char) : Bool :=
  match s with
  | [] => false
  | c :: _ => c == ':'

/-- Models `strings.Contains(url, "/:")` (`urlPathParamSeparator`). -/
def containsPP : List Char → Bool
  | [] => false
  | c :: cs => (c == '/' && startsColon cs) || containsPP cs

/-- Models `strings.Count(url, "/:")`.  Go counts non-overlapping
occurrences; the two-character pattern `/:` cannot overlap itself, so
counting every position whose character is `/` followed by `:` is the
same number. -/
def countPP : List Char → Nat
  | [] => 0
  | c :: cs => (if c == '/' && startsColon cs then 1 else 0) + countPP cs

/-- Helper for `splitSlash`: returns the first `/`-delimited segment and
the list of remaining segments. -/
def splitSlashF : List Char → List Char × List (List Char)
  | [] => ([], [])
  | c :: cs =>
    if c == '/' then ([], (splitSlashF cs).1 :: (splitSlashF cs).2)
    else (c :: (splitSlashF cs).1, (splitSlashF cs).2)

/-- Models `strings.Split(url, "/")` (`urlSeparator`): the list of
`/`-delimited segments, always non-empty. -/
def splitSlash (s : List Char) : List (List Char) :=
  (splitSlashF s).1 :: (splitSlashF s).2

/-- Models `strings.Join(splits, "/")`. -/
def joinSlash : List (List Char) → List Char
  | [] => []
  | [s] => s
  | s :: rest => s ++ '/' :: joinSlash rest

/-- Model of the Go `http.RoundTripper` actually chosen by the code:
either the zero value (`nil` interface), `http.DefaultTransport`, or an
`&http.Transport{Proxy: http.ProxyURL(proxy)}` built from a proxy URL. -/
inductive Transport
  | nilTransport
  | defaultTransport
  | proxyTransport (proxyURL : String)
  deriving DecidableEq, Repr

/-- Model of `*http.Client`: the fields the repository sets.  `timeout`
models `time.Duration` (an `int64` nanosecond count). -/
structure Client where
  transport : Transport
  timeout : Int
  deriving DecidableEq, Repr

/-- Model of `*http.Response`: the fields the repository reads. -/
structure Response where
  statusCode : Nat
  body : String
  deriving DecidableEq, Repr

/-- The error values of `httpreq`, named after the source variables
(`errPathParamConflift` keeps the source's spelling), plus the wrapped
`fmt.Errorf` errors the pipeline can produce. -/
inductive DispatchError
  | errPathParamConflift
  | errorMethodIsEmpty
  | errMethodUnknown
  | errorResponseStructIsNil
  | errNoPathParamValueSet
  | errPathParamPassedIncorrect
  | errMarshalFailed
  | errNewRequestFailed
  | errQueryUnescapeFailed
  | errProxyParseFailed
  | errDispatchFailed
  | errReadResponseFailed
  | errDecodeFailed (statusCode : Nat)
  deriving DecidableEq, Repr

/-- The `httpreq.Request` builder.  Go maps (`headers`, `queryParams`)
are modelled as association lists; `bodyStruct` is an opaque Go value
whose only observable behaviour in the pipeline is its `json.Marshal`
outcome, so it is modelled as that outcome (`some none` = a value whose
marshalling fails, `some (some s)` = a value marshalling to `s`);
`body` is an `io.Reader` modelled by the string it yields. -/
structure Request where
  url : String
  method : String
  headers : List (String × String)
  pathParams : List String
  queryParams : List (String × String)
  unescapeQueryParams : Bool
  httpcli : Option Client
  proxyURL : String
  transport : Transport
  timeout : Int
  contentType : String
  verbose : Bool
  username : String
  password : String
  body : Option String
  bodyStruct : Option (Option String)
  bodyValues : Option (List (String × String))
  deriving DecidableEq, Repr

/-- Models `httpreq.New`: zero values for every field the constructor
does not set. -/
def New (method url : String) : Request :=
  { url := url, method := method, headers := [], pathParams := [],
    queryParams := [], unescapeQueryParams := false, httpcli := none,
    proxyURL := "", transport := .nilTransport, timeout := 0,
    contentType := "", verbose := false, username := "", password := "",
    body := none, bodyStruct := none, bodyValues := none }

/-- Go map assignment `m[k] = v` on the association-list model. -/
def setAssoc (m : List (String × String)) (k v : String) : List (String × String) :=
  if m.any (fun p => p.1 == k) then
    m.map (fun p => if p.1 == k then (k, v) else p)
  else m ++ [(k, v)]

/-- Models `(*Request).PathParams` (replaces the whole sequence). -/
def Request.PathParams (r : Request) (params : List String) : Request :=
  { r with pathParams := params }

/-- Models `(*Request).QueryParam` (map upsert). -/
def Request.QueryParam (r : Request) (key value : String) : Request :=
  { r with queryParams := setAssoc r.queryParams key value }

/-- Models `(*Request).Header` (map upsert). -/
def Request.Header (r : Request) (key value : String) : Request :=
  { r with headers := setAssoc r.headers key value }

/-- Models `(*Request).HTTPClient`. -/
def Request.HTTPClient (r : Request) (client : Client) : Request :=
  { r with httpcli := some client }

/-- Models `(*Request).ProxyURL`. -/
def Request.ProxyURL (r : Request) (url : String) : Request :=
  { r with proxyURL := url }

/-- Models `(*Request).Timeout`. -/
def Request.Timeout (r : Request) (timeout : Int) : Request :=
  { r with timeout := timeout }

/-- Models `(*Request).UnescapeQueryParams`. -/
def Request.UnescapeQueryParams (r : Request) (unescape : Bool) : Request :=
  { r with unescapeQueryParams := unescape }

/-- Models `(*Request).Verbose`. -/
def Request.Verbose (r : Request) (verbose : Bool) : Request :=
  { r with verbose := verbose }

/-- Models `(*Request).BasicAuth`. -/
def Request.BasicAuth (r : Request) (username password : String) : Request :=
  { r with username := username, password := password }

/-- Models `(*Request).Body`. -/
def Request.Body (r : Request) (reader : String) : Request :=
  { r with body := some reader }

/-- Models `(*Request).BodyStruct`; the argument is the marshal outcome
of the supplied Go value (see `Request.bodyStruct`). -/
def Request.BodyStruct (r : Request) (request : Option String) : Request :=
  { r with bodyStruct := some request }

/-- Models `(*Request).BodyValues`. -/
def Request.BodyValues (r : Request) (values : List (String × String)) : Request :=
  { r with bodyValues := some values }

/-- The standard base64 alphabet used by `base64.StdEncoding`. -/
def base64Alphabet : String :=
  "ABCDEFGHIJKLMNOPQRSTUVWXYZabcdefghijklmnopqrstuvwxyz0123456789+/"

/-- The alphabet character for a six-bit value. -/
def b64Char (n : Nat) : Char := base64Alphabet.data.getD n 'A'

/-- Models `base64.StdEncoding.EncodeToString` on a byte list (bytes as
`Nat` below 256), including `=` padding. -/
def base64Encode : List Nat → String
  | [] => ""
  | [a] => String.mk [b64Char (a / 4), b64Char (a % 4 * 16), '=', '=']
  | [a, b] =>
    String.mk [b64Char (a / 4), b64Char (a % 4 * 16 + b / 16), b64Char (b % 16 * 4), '=']
  | a :: b :: c :: rest =>
    String.mk [b64Char (a / 4), b64Char (a % 4 * 16 + b / 16),
               b64Char (b % 16 * 4 + c / 64), b64Char (c % 64)]
      ++ base64Encode rest

/-- Models the Go conversion `[]byte(s)`: the UTF-8 bytes of a string. -/
def utf8Bytes (s : String) : List Nat :=
  s.data.flatMap fun c =>
    let n := c.toNat
    if n < 128 then [n]
    else if n < 2048 then [192 + n / 64, 128 + n % 64]
    else if n < 65536 then [224 + n / 4096, 128 + n / 64 % 64, 128 + n % 64]
    else [240 + n / 262144, 128 + n / 4096 % 64, 128 + n / 64 % 64, 128 + n % 64]

/-- Models `httpreq.basicAuth`: base64 of `username + ":" + password`. -/
def basicAuth (username password : String) : String :=
  base64Encode (utf8Bytes (username ++ ":" ++ password))

/-- The fixed set of methods accepted by `validateMethod`
(`http.MethodGet` … `http.MethodPatch`, in source order). -/
def validMethods : List String :=
  ["GET", "POST", "PUT", "DELETE", "HEAD", "OPTIONS", "CONNECT", "TRACE", "PATCH"]

/-- Models `(*Request).validateMethod`: the `switch` on `r.method`. -/
def validateMethod (r : Request) : Option DispatchError :=
  if r.method = "" then some .errorMethodIsEmpty
  else if r.method ∈ validMethods then none
  else some .errMethodUnknown

/-- Outcome of the substitution loop of `validatePathParams`.
`panicked` models the Go runtime panic raised by the out-of-bounds read
`r.pathParams[idx]`; `ok segs idx` returns the rewritten segments and
the final value of the `idx` counter. -/
inductive SubstResult
  | panicked
  | ok (segs : List (List Char)) (consumed : Nat)
  deriving DecidableEq, Repr

/-- The loop `for i, s := range splits { if strings.HasPrefix(s, ":") {
splits[i] = r.pathParams[idx]; idx++ } }` of `validatePathParams`. -/
def substSegs (params : List (List Char)) : Nat → List (List Char) → SubstResult
  | idx, [] => .ok [] idx
  | idx, seg :: rest =>
    if startsColon seg then
      match params.get? idx with
      | none => .panicked
      | some v =>
        match substSegs params (idx + 1) rest with
        | .panicked => .panicked
        | .ok segs n => .ok (v :: segs) n
    else
      match substSegs params idx rest with
      | .panicked => .panicked
      | .ok segs n => .ok (seg :: segs) n

/-- Outcome of `validatePathParams`: a Go panic, an error, or the
(possibly `url`-rewritten) receiver. -/
inductive VPResult
  | panicked
  | err (e : DispatchError)
  | ok (r : Request)
  deriving DecidableEq, Repr

/-- Models `(*Request).validatePathParams`, including its destructive
update of `r.url` on success. -/
def validatePathParams (r : Request) : VPResult :=
  if containsPP r.url.data then
    if r.pathParams.length = 0 then .err .errNoPathParamValueSet
    else if countPP r.url.data ≠ r.pathParams.length then .err .errPathParamPassedIncorrect
    else
      match substSegs (r.pathParams.map String.data) 0 (splitSlash r.url.data) with
      | .panicked => .panicked
      | .ok segs idx =>
        if idx ≠ r.pathParams.length then .err .errPathParamConflift
        else .ok { r with url := String.mk (joinSlash segs) }
  else .ok r

/-- Model of the `*http.Request` built by `http.NewRequest` and then
decorated by `Dispatch`.  `rawQuery` models `req.URL.RawQuery`; headers
are an append-only list because `http.Header.Add` appends (Go map
iteration order for user headers is abstracted as the list order). -/
structure HttpRequest where
  method : String
  url : String
  rawQuery : String
  body : Option String
  headers : List (String × String)
  deriving DecidableEq, Repr

/-- `http.Header.Add`. -/
def addHeader (h : HttpRequest) (k v : String) : HttpRequest :=
  { h with headers := h.headers ++ [(k, v)] }

/-- The external collaborators invoked but not reimplemented by the
repository, as oracle functions: `http.NewRequest` URL parsing
(`newRequestOk`, and `initRawQuery` for the query component the parsed
`req.URL` starts with), `req.URL.Query()` + `Add` + `Encode`
(`encodeQuery`, given the current raw query and the added pairs),
`url.QueryUnescape`, `url.Parse` of the proxy URL, `url.Values.Encode`,
the network call `httpcli.Do`, `json.Decode` into the scan target, and
the verbose-mode `ioutil.ReadAll`. -/
structure Env where
  newRequestOk : String → String → Bool
  initRawQuery : String → String
  encodeQuery : String → List (String × String) → String
  queryUnescape : String → Option String
  parseProxyOk : String → Bool
  encodeValues : List (String × String) → String
  doReq : HttpRequest → Client → Option Response
  decode : String → Bool
  readBodyOk : Bool

/-- The body-preparation block of `Dispatch` (lines 198-213): returns
the resolved body and content type, or the `json.Marshal` error. -/
def resolveBody (r : Request) (env : Env) : Except DispatchError (Option String × String) :=
  match r.body with
  | some b => .ok (some b, r.contentType)
  | none =>
    match r.bodyStruct with
    | some marshalled =>
      match marshalled with
      | none => .error .errMarshalFailed
      | some bits => .ok (some bits, ContentTypeJSON)
    | none =>
      match r.bodyValues with
      | some vs => .ok (some (env.encodeValues vs), ContentTypeURLENCODED)
      | none => .ok (none, r.contentType)

/-- The `*http.Request` as freshly created by `http.NewRequest`. -/
def mkHreq (r : Request) (env : Env) (body : Option String) : HttpRequest :=
  { method := r.method, url := r.url, rawQuery := env.initRawQuery r.url,
    body := body, headers := [] }

/-- The header-decoration block of `Dispatch` (lines 221-236): basic
auth, content type, then the user headers. -/
def decorate (r : Request) (contentType : String) (h : HttpRequest) : HttpRequest :=
  let h1 := if r.username ≠ "" ∨ r.password ≠ "" then
              addHeader h "Authorization" ("Basic " ++ basicAuth r.username r.password)
            else h
  let h2 := if contentType ≠ "" then addHeader h1 "Content-Type" contentType else h1
  { h2 with headers := h2.headers ++ r.headers }

/-- The query-parameter block of `Dispatch` (lines 239-254). -/
def applyQuery (r : Request) (env : Env) (h : HttpRequest) : Except DispatchError HttpRequest :=
  if 0 < r.queryParams.length then
    let params := env.encodeQuery h.rawQuery r.queryParams
    if r.unescapeQueryParams then
      match env.queryUnescape params with
      | some p => .ok { h with rawQuery := p }
      | none => .error .errQueryUnescapeFailed
    else .ok { h with rawQuery := params }
  else .ok h

/-- `30 * time.Second` in nanoseconds: the `defaultTimeout` variable. -/
def defaultTimeout : Int := 30 * 1000000000

/-- The client-construction block of `Dispatch` (lines 267-278): build
a client from `r.transport` and the timeout unless one was supplied. -/
def mkClient (r : Request) : Request × Except DispatchError Client :=
  match r.httpcli with
  | some c => (r, .ok c)
  | none =>
    let cli : Client := ⟨r.transport, if 0 < r.timeout then r.timeout else defaultTimeout⟩
    ({ r with httpcli := some cli }, .ok cli)

/-- The transport- and client-selection block of `Dispatch`
(lines 256-278), including its mutation of `r.transport`/`r.httpcli`. -/
def selectClient (r0 : Request) (env : Env) : Request × Except DispatchError Client :=
  let r := { r0 with transport := Transport.defaultTransport }
  if r.httpcli.isNone && r.proxyURL != "" then
    if env.parseProxyOk r.proxyURL then
      mkClient { r with transport := Transport.proxyTransport r.proxyURL }
    else (r, .error .errProxyParseFailed)
  else mkClient r

/-- Terminal outcome of `Dispatch`. -/
inductive DOut
  | panicked
  | failed (e : DispatchError)
  | succeeded (res : Response)
  deriving DecidableEq, Repr

/-- Observable trace of one `Dispatch` call: its outcome, the builder
state after the call (Go mutates the receiver), the wire request that
was built (if the pipeline got that far) and whether the network was
contacted. -/
structure DispatchTrace where
  out : DOut
  finalReq : Request
  hreq : Option HttpRequest
  netCalled : Bool
  deriving DecidableEq, Repr

/-- Models `(*Request).Dispatch` as the composition of the blocks
above, in source order. -/
def dispatch (r : Request) (env : Env) : DispatchTrace :=
  match validateMethod r with
  | some e => ⟨.failed e, r, none, false⟩
  | none =>
    match validatePathParams r with
    | .panicked => ⟨.panicked, r, none, false⟩
    | .err e => ⟨.failed e, r, none, false⟩
    | .ok r1 =>
      match resolveBody r1 env with
      | .error e => ⟨.failed e, r1, none, false⟩
      | .ok (body, contentType) =>
        if env.newRequestOk r1.method r1.url then
          match applyQuery r1 env (decorate r1 contentType (mkHreq r1 env body)) with
          | .error e => ⟨.failed e, r1, none, false⟩
          | .ok hreq2 =>
            match selectClient r1 env with
            | (r2, .error e) => ⟨.failed e, r2, none, false⟩
            | (r2, .ok cli) =>
              match env.doReq hreq2 cli with
              | none => ⟨.failed .errDispatchFailed, r2, some hreq2, true⟩
              | some res =>
                if r2.verbose then
                  if env.readBodyOk then ⟨.succeeded res, r2, some hreq2, true⟩
                  else ⟨.failed .errReadResponseFailed, r2, some hreq2, true⟩
                else ⟨.succeeded res, r2, some hreq2, true⟩
        else ⟨.failed .errNewRequestFailed, r1, none, false⟩

/-- Terminal outcome of `DispatchScan`. -/
inductive ScanOut
  | panicked
  | failed (e : DispatchError)
  | succeeded
  deriving DecidableEq, Repr

/-- Observable trace of one `DispatchScan` call. -/
structure ScanTrace where
  out : ScanOut
  finalReq : Request
  netCalled : Bool
  deriving DecidableEq, Repr

/-- Models `(*Request).DispatchScan`; the decode target is abstracted
to its nilness (`Option Unit`) and the json decode outcome lives in
`Env.decode`. -/
def dispatchScan (r : Request) (env : Env) (response : Option Unit) : ScanTrace :=
  match response with
  | none => ⟨.failed .errorResponseStructIsNil, r, false⟩
  | some _ =>
    match dispatch r env with
    | ⟨.panicked, fr, _, nc⟩ => ⟨.panicked, fr, nc⟩
    | ⟨.failed e, fr, _, nc⟩ => ⟨.failed e, fr, nc⟩
    | ⟨.succeeded res, fr, _, nc⟩ =>
      if env.decode res.body then ⟨.succeeded, fr, nc⟩
      else ⟨.failed (.errDecodeFailed res.statusCode), fr, nc⟩

/-- Specification-side description of the substitution loop: replace
every segment beginning with `:` by the next unused parameter value,
left to right. -/
def substituteSegs (params : List (List Char)) : List (List Char) → List (List Char)
  | [] => []
  | seg :: rest =>
    if startsColon seg then params.headD [] :: substituteSegs params.tail rest
    else seg :: substituteSegs params rest

/-- Specification-side description of the whole substitution: split the
URL on `/`, substitute left-to-right, rejoin with `/`. -/
def substitutedURL (r : Request) : String :=
  String.mk (joinSlash (substituteSegs (r.pathParams.map String.data) (splitSlash r.url.data)))


lemma splitSlashF_fst_startsColon (s : List Char) :
    startsColon (splitSlashF s).1 = startsColon s := by
  cases s with
  | nil => rfl
  | cons c cs =>
    by_cases hc : c = '/'
    · subst hc; rfl
    · have hb : (c == '/') = false := by simp [hc]
      simp [splitSlashF, hb, startsColon]

lemma countP_splitSlash (s : List Char) :
    (splitSlash s).countP startsColon
      = countPP s + (if startsColon s then 1 else 0) := by
  induction s with
  | nil => rfl
  | cons c cs ih =>
    have hcs : (splitSlash cs).countP startsColon
        = ((splitSlashF cs).2).countP startsColon
          + (if startsColon (splitSlashF cs).1 then 1 else 0) := by
      simp [splitSlash, List.countP_cons]
    have h3 := splitSlashF_fst_startsColon cs
    rw [hcs, h3] at ih
    by_cases hc : c = '/'
    · subst hc
      have h1 : splitSlash ('/' :: cs)
          = [] :: (splitSlashF cs).1 :: (splitSlashF cs).2 := by
        simp [splitSlash, splitSlashF]
      have h2 : countPP ('/' :: cs)
          = (if startsColon cs then 1 else 0) + countPP cs := by
        simp [countPP]
      have e0 : startsColon ([] : List Char) = false := rfl
      have e1 : startsColon ('/' :: cs) = false := rfl
      rw [h1, List.countP_cons, List.countP_cons, e0, e1, h2, h3]
      cases hb : startsColon cs <;> simp [hb] at ih ⊢ <;> omega
    · have hbeq : (c == '/') = false := by simp [hc]
      have h1 : splitSlash (c :: cs)
          = (c :: (splitSlashF cs).1) :: (splitSlashF cs).2 := by
        simp [splitSlash, splitSlashF, hbeq]
      have h2 : countPP (c :: cs) = countPP cs := by
        simp [countPP, hbeq]
      have h4 : startsColon (c :: (splitSlashF cs).1) = startsColon (c :: cs) := rfl
      have e1 : startsColon ('/' :: cs) = false := rfl
      rw [h1, List.countP_cons, h4, h2]
      cases hb : startsColon cs <;> simp [hb] at ih <;>
        cases hb2 : startsColon (c :: cs) <;> simp [hb2] <;> omega


lemma containsPP_iff_countPP (s : List Char) :
    containsPP s = true ↔ 1 ≤ countPP s := by
  induction s with
  | nil => simp [containsPP, countPP]
  | cons c cs ih =>
    simp only [containsPP, countPP, Bool.or_eq_true, ih]
    cases h : (c == '/' && startsColon cs) <;> simp

lemma substSegs_ok (segs : List (List Char)) :
    ∀ (params : List (List Char)) (idx : Nat),
      idx + segs.countP startsColon ≤ params.length →
      substSegs params idx segs
        = .ok (substituteSegs (params.drop idx) segs) (idx + segs.countP startsColon) := by
  induction segs with
  | nil => intro params idx h; simp [substSegs, substituteSegs]
  | cons seg rest ih =>
    intro params idx h
    cases hs : startsColon seg
    · have hc : (seg :: rest).countP startsColon = rest.countP startsColon := by
        simp [List.countP_cons, hs]
      rw [hc] at h ⊢
      have hrec := ih params idx h
      have hsub : substituteSegs (params.drop idx) (seg :: rest)
          = seg :: substituteSegs (params.drop idx) rest := by
        show (if startsColon seg then _ else _) = _
        rw [hs]; simp
      rw [hsub]
      show (if startsColon seg then _ else _) = _
      rw [hs]
      simp only [Bool.false_eq_true, if_false, hrec]
    · have hc : (seg :: rest).countP startsColon = rest.countP startsColon + 1 := by
        simp [List.countP_cons, hs]
      rw [hc] at h ⊢
      have hlt : idx < params.length := by omega
      have hget : params.get? idx = some params[idx] := by
        simp [List.get?_eq_getElem?, List.getElem?_eq_getElem hlt]
      have hrec := ih params (idx + 1) (by omega)
      have hdrop : params.drop idx = params[idx] :: params.drop (idx + 1) :=
        List.drop_eq_getElem_cons hlt
      have hsub : substituteSegs (params[idx] :: params.drop (idx + 1)) (seg :: rest)
          = params[idx] :: substituteSegs (params.drop (idx + 1)) rest := by
        show (if startsColon seg then _ else _) = _
        rw [hs]; simp [List.getElem?_eq_getElem hlt]
      have hcount : idx + (rest.countP startsColon + 1)
          = (idx + 1) + rest.countP startsColon := by omega
      rw [hcount, hdrop, hsub]
      show (if startsColon seg then _ else _) = _
      rw [hs]
      simp only [if_true, hget, hrec]

lemma substSegs_panicked (segs : List (List Char)) :
    ∀ (params : List (List Char)) (idx : Nat),
      idx ≤ params.length →
      params.length < idx + segs.countP startsColon →
      substSegs params idx segs = .panicked := by
  induction segs with
  | nil => intro params idx h1 h2; simp at h2; omega
  | cons seg rest ih =>
    intro params idx h1 h2
    cases hs : startsColon seg
    · have hc : (seg :: rest).countP startsColon = rest.countP startsColon := by
        simp [List.countP_cons, hs]
      rw [hc] at h2
      have hrec := ih params idx h1 h2
      show (if startsColon seg then _ else _) = _
      rw [hs]
      simp only [Bool.false_eq_true, if_false, hrec]
    · have hc : (seg :: rest).countP startsColon = rest.countP startsColon + 1 := by
        simp [List.countP_cons, hs]
      rw [hc] at h2
      rcases Nat.lt_or_ge idx params.length with hlt | hge
      · have hget : params.get? idx = some params[idx] := by
          simp [List.get?_eq_getElem?, List.getElem?_eq_getElem hlt]
        have hrec := ih params (idx + 1) (by omega) (by omega)
        show (if startsColon seg then _ else _) = _
        rw [hs]
        simp only [if_true, hget, hrec]
      · have hnone : params.get? idx = none := by
          simp [List.get?_eq_getElem?]; omega
        show (if startsColon seg then _ else _) = _
        rw [hs]
        simp only [if_true, hnone]

lemma validatePathParams_of_not_contains (r : Request)
    (h : containsPP r.url.data = false) : validatePathParams r = .ok r := by
  unfold validatePathParams
  rw [h]
  simp

lemma validatePathParams_zero (r : Request)
    (hc : containsPP r.url.data = true) (h0 : r.pathParams.length = 0) :
    validatePathParams r = .err .errNoPathParamValueSet := by
  unfold validatePathParams
  rw [hc, h0]
  simp

lemma validatePathParams_mismatch (r : Request)
    (hc : containsPP r.url.data = true) (h0 : r.pathParams.length ≠ 0)
    (hm : countPP r.url.data ≠ r.pathParams.length) :
    validatePathParams r = .err .errPathParamPassedIncorrect := by
  unfold validatePathParams
  rw [hc]
  simp [h0, hm]

lemma validatePathParams_ok_subst (r : Request)
    (hc : containsPP r.url.data = true)
    (hl : startsColon r.url.data = false)
    (hn : r.pathParams.length = countPP r.url.data) :
    validatePathParams r = .ok { r with url := substitutedURL r } := by
  have hcount : 1 ≤ countPP r.url.data := (containsPP_iff_countPP _).mp hc
  have hcp : (splitSlash r.url.data).countP startsColon = countPP r.url.data := by
    rw [countP_splitSlash, hl]; simp
  have hlen : (r.pathParams.map String.data).length = r.pathParams.length := by simp
  have hsub := substSegs_ok (splitSlash r.url.data) (r.pathParams.map String.data) 0
    (by rw [hcp, hlen]; omega)
  rw [hcp, List.drop_zero, Nat.zero_add] at hsub
  unfold validatePathParams
  rw [hc]
  simp only [if_true]
  rw [if_neg (by omega), if_neg (by omega)]
  rw [hsub]
  simp only []
  rw [if_neg (by omega)]
  unfold substitutedURL
  rfl

lemma validatePathParams_no_panic (r : Request)
    (hl : startsColon r.url.data = false) :
    validatePathParams r ≠ .panicked := by
  by_cases hc : containsPP r.url.data = true
  · by_cases h0 : r.pathParams.length = 0
    · rw [validatePathParams_zero r hc h0]; intro h; cases h
    · by_cases hm : countPP r.url.data = r.pathParams.length
      · rw [validatePathParams_ok_subst r hc hl hm.symm]; intro h; cases h
      · rw [validatePathParams_mismatch r hc h0 hm]; intro h; cases h
  · rw [validatePathParams_of_not_contains r (by simpa using hc)]; intro h; cases h

lemma validatePathParams_fields (r r' : Request)
    (h : validatePathParams r = .ok r') : r' = { r with url := r'.url } := by
  unfold validatePathParams at h
  by_cases hc : containsPP r.url.data = true
  · rw [hc] at h
    simp only [if_true] at h
    by_cases h0 : r.pathParams.length = 0
    · simp [h0] at h
    · rw [if_neg h0] at h
      by_cases hm : countPP r.url.data ≠ r.pathParams.length
      · simp [hm] at h
      · rw [if_neg hm] at h
        cases hss : substSegs (r.pathParams.map String.data) 0 (splitSlash r.url.data) with
        | panicked => rw [hss] at h; cases h
        | ok segs idx =>
          rw [hss] at h
          simp only [] at h
          by_cases hi : idx ≠ r.pathParams.length
          · simp [hi] at h
          · rw [if_neg hi] at h
            cases h
            rfl
  · rw [Bool.not_eq_true] at hc
    rw [hc] at h
    simp at h
    subst h
    rfl

lemma dispatch_method_err (r : Request) (env : Env) (e : DispatchError)
    (h : validateMethod r = some e) :
    dispatch r env = ⟨.failed e, r, none, false⟩ := by
  unfold dispatch
  rw [h]

lemma dispatch_path_err (r : Request) (env : Env) (e : DispatchError)
    (hm : validateMethod r = none) (hp : validatePathParams r = .err e) :
    dispatch r env = ⟨.failed e, r, none, false⟩ := by
  unfold dispatch
  rw [hm, hp]

lemma dispatch_path_panic (r : Request) (env : Env)
    (hm : validateMethod r = none) (hp : validatePathParams r = .panicked) :
    dispatch r env = ⟨.panicked, r, none, false⟩ := by
  unfold dispatch
  rw [hm, hp]

lemma dispatch_body_err (r r1 : Request) (env : Env) (e : DispatchError)
    (hm : validateMethod r = none) (hp : validatePathParams r = .ok r1)
    (hb : resolveBody r1 env = .error e) :
    dispatch r env = ⟨.failed e, r1, none, false⟩ := by
  simp [dispatch, hm, hp, hb]

lemma selectClient_fst_url (r : Request) (env : Env) :
    ((selectClient r env).1).url = r.url := by
  unfold selectClient mkClient
  by_cases h : ({ r with transport := Transport.defaultTransport } : Request).httpcli.isNone
      && ({ r with transport := Transport.defaultTransport } : Request).proxyURL != ""
  · rw [if_pos h]
    by_cases hp : env.parseProxyOk ({ r with transport := Transport.defaultTransport } : Request).proxyURL
    · rw [if_pos hp]
      cases r.httpcli <;> rfl
    · rw [if_neg hp]
  · rw [if_neg h]
    cases r.httpcli <;> rfl

lemma applyQuery_headers (r : Request) (env : Env) (h h' : HttpRequest)
    (ha : applyQuery r env h = .ok h') : h'.headers = h.headers := by
  unfold applyQuery at ha
  by_cases hq : 0 < r.queryParams.length
  · rw [if_pos hq] at ha
    by_cases hu : r.unescapeQueryParams
    · rw [if_pos hu] at ha
      cases hue : env.queryUnescape (env.encodeQuery h.rawQuery r.queryParams) with
      | none => rw [hue] at ha; cases ha
      | some p => rw [hue] at ha; cases ha; rfl
    · rw [if_neg hu] at ha
      cases ha
      rfl
  · rw [if_neg hq] at ha
    cases ha
    rfl

lemma dispatch_finalReq_url (r r1 : Request) (env : Env)
    (hm : validateMethod r = none) (hp : validatePathParams r = .ok r1) :
    (dispatch r env).finalReq.url = r1.url := by
  simp only [dispatch, hm, hp]
  cases hb : resolveBody r1 env with
  | error e => simp
  | ok bc =>
    obtain ⟨body, ct⟩ := bc
    by_cases hn : env.newRequestOk r1.method r1.url
    · simp only [hn, if_true]
      cases ha : applyQuery r1 env (decorate r1 ct (mkHreq r1 env body)) with
      | error e => simp
      | ok h2 =>
        rcases hs : selectClient r1 env with ⟨r2, ec⟩
        have hsc : r2.url = r1.url := by
          have := selectClient_fst_url r1 env
          rw [hs] at this
          simpa using this
        cases ec with
        | error e => simp [hsc]
        | ok cli =>
          cases hd : env.doReq h2 cli with
          | none => simp [hd, hsc]
          | some res =>
            by_cases hv : r2.verbose <;> by_cases hrb : env.readBodyOk <;>
              simp [hd, hv, hrb, hsc]
    · simp [hn]

lemma dispatch_hreq_some (r : Request) (env : Env) (h2 : HttpRequest)
    (hh : (dispatch r env).hreq = some h2) :
    ∃ r1 body ct, validateMethod r = none ∧ validatePathParams r = .ok r1 ∧
      resolveBody r1 env = .ok (body, ct) ∧
      env.newRequestOk r1.method r1.url = true ∧
      applyQuery r1 env (decorate r1 ct (mkHreq r1 env body)) = .ok h2 := by
  cases hm : validateMethod r with
  | some e => rw [dispatch_method_err r env e hm] at hh; cases hh
  | none =>
    cases hp : validatePathParams r with
    | panicked => rw [dispatch_path_panic r env hm hp] at hh; cases hh
    | err e => rw [dispatch_path_err r env e hm hp] at hh; cases hh
    | ok r1 =>
      cases hb : resolveBody r1 env with
      | error e => rw [dispatch_body_err r r1 env e hm hp hb] at hh; cases hh
      | ok bc =>
        obtain ⟨body, ct⟩ := bc
        by_cases hn : env.newRequestOk r1.method r1.url
        · simp only [dispatch, hm, hp, hb, hn, if_true] at hh
          cases ha : applyQuery r1 env (decorate r1 ct (mkHreq r1 env body)) with
          | error e => rw [ha] at hh; simp at hh
          | ok hq =>
            rw [ha] at hh
            rcases hs : selectClient r1 env with ⟨r2, ec⟩
            rw [hs] at hh
            cases ec with
            | error e => simp at hh
            | ok cli =>
              simp only [] at hh
              have hq2 : hq = h2 := by
                cases hd : env.doReq hq cli with
                | none => rw [hd] at hh; simpa using hh
                | some res =>
                  rw [hd] at hh
                  by_cases hv : r2.verbose <;> by_cases hrb : env.readBodyOk <;>
                    simp [hv, hrb] at hh <;> exact hh
              exact ⟨r1, body, ct, rfl, rfl, hb, hn, by rw [ha, hq2]⟩
        · simp only [dispatch, hm, hp, hb, hn, if_false] at hh
          simp at hh

lemma decorate_headers (r : Request) (ct : String) (h : HttpRequest) :
    (decorate r ct h).headers
      = h.headers
        ++ (if r.username ≠ "" ∨ r.password ≠ "" then
              [("Authorization", "Basic " ++ basicAuth r.username r.password)] else [])
        ++ (if ct ≠ "" then [("Content-Type", ct)] else [])
        ++ r.headers := by
  unfold decorate addHeader
  by_cases h1 : r.username ≠ "" ∨ r.password ≠ "" <;>
    by_cases h2 : ct ≠ "" <;> simp [h1, h2]

lemma dispatch_applyQuery_err (r r1 : Request) (env : Env) (b : Option String)
    (ct : String) (e : DispatchError)
    (hm : validateMethod r = none) (hp : validatePathParams r = .ok r1)
    (hb : resolveBody r1 env = .ok (b, ct))
    (hn : env.newRequestOk r1.method r1.url = true)
    (ha : applyQuery r1 env (decorate r1 ct (mkHreq r1 env b)) = .error e) :
    dispatch r env = ⟨.failed e, r1, none, false⟩ := by
  simp [dispatch, hm, hp, hb, hn, ha]

/-- A concrete environment for evaluating the pipeline on closed inputs:
every external collaborator succeeds, the network answers 200/"ok". -/
def okEnv : Env :=
  { newRequestOk := fun _ _ => true
  , initRawQuery := fun _ => ""
  , encodeQuery := fun _ ps => String.intercalate "&" (ps.map fun p => p.1 ++ "=" ++ p.2)
  , queryUnescape := fun s => some s
  , parseProxyOk := fun _ => true
  , encodeValues := fun vs => String.intercalate "&" (vs.map fun p => p.1 ++ "=" ++ p.2)
  , doReq := fun _ _ => some ⟨200, "ok"⟩
  , decode := fun _ => true
  , readBodyOk := true }

/-- Like `okEnv` but `url.QueryUnescape` reports malformed percent
encoding. -/
def unescapeFailEnv : Env := { okEnv with queryUnescape := fun _ => none }

/-- Like `okEnv` but the json decode of the response body fails. -/
def decodeFailEnv : Env := { okEnv with decode := fun _ => false }

/-- C10: for every URL that does not contain the substring `/:`, and for
every path-parameter list (of any length), path-parameter validation
returns no error and leaves the builder (its `url` field and all other
fields) unchanged. -/
theorem C10_pathValidationNoOp (r : Request) (h : containsPP r.url.data = false) :
    validatePathParams r = .ok r :=
  validatePathParams_of_not_contains r h

/-- Witness for C10 at a concrete URL without `/:` and a non-empty
parameter list. -/
theorem C10_pathValidationNoOp_witness :
    containsPP ("/plain/path").data = false ∧
    validatePathParams { New "GET" "/plain/path" with pathParams := ["a", "b"] }
      = .ok { New "GET" "/plain/path" with pathParams := ["a", "b"] } :=
  ⟨by decide, C10_pathValidationNoOp _ (by decide)⟩

/-- C3: `Dispatch` returns `errorMethodIsEmpty` iff the method is empty,
`errMethodUnknown` iff the method is non-empty and outside the fixed
method set, both before any body resolution, request construction or
network I/O (`finalReq` untouched, `hreq = none`, `netCalled = false`);
a method in the set passes validation. -/
theorem C3_methodValidation (r : Request) (env : Env) :
    (validateMethod r = some .errorMethodIsEmpty ↔ r.method = "") ∧
    (validateMethod r = some .errMethodUnknown ↔ (r.method ≠ "" ∧ r.method ∉ validMethods)) ∧
    (r.method ∈ validMethods → validateMethod r = none) ∧
    (∀ e, validateMethod r = some e → dispatch r env = ⟨.failed e, r, none, false⟩) := by
  refine ⟨?_, ?_, ?_, fun e h => dispatch_method_err r env e h⟩
  · unfold validateMethod
    by_cases h0 : r.method = ""
    · simp [h0]
    · by_cases hmem : r.method ∈ validMethods <;> simp [h0, hmem]
  · unfold validateMethod
    by_cases h0 : r.method = ""
    · simp [h0]
    · by_cases hmem : r.method ∈ validMethods <;> simp [h0, hmem]
  · intro hmem
    have h0 : r.method ≠ "" := by
      intro hx
      rw [hx] at hmem
      simp [validMethods] at hmem
    unfold validateMethod
    simp [h0, hmem]

/-- Witness for C3: the empty method and the method `"test"` fail as
stated, `"GET"` passes. -/
theorem C3_methodValidation_witness :
    validateMethod (New "" "/x") = some .errorMethodIsEmpty ∧
    dispatch (New "test" "/x") okEnv
      = ⟨.failed .errMethodUnknown, New "test" "/x", none, false⟩ ∧
    validateMethod (New "GET" "/x") = none :=
  ⟨(C3_methodValidation (New "" "/x") okEnv).1.mpr rfl,
   (C3_methodValidation (New "test" "/x") okEnv).2.2.2 _ (by decide),
   (C3_methodValidation (New "GET" "/x") okEnv).2.2.1 (by decide)⟩

/-- C2: `Dispatch` selects exactly one body source by fixed precedence
explicit reader > structured (json) object > form values > none, with
the content type following the chosen source (and left as-is for an
explicit reader), and a marshal failure of the structured object is
returned as a dispatch error before request construction or I/O. -/
theorem C2_bodyPrecedence (r : Request) (env : Env) :
    (∀ b, r.body = some b → resolveBody r env = .ok (some b, r.contentType)) ∧
    (∀ s, r.body = none → r.bodyStruct = some (some s) →
       resolveBody r env = .ok (some s, ContentTypeJSON)) ∧
    (r.body = none → r.bodyStruct = some none →
       resolveBody r env = .error .errMarshalFailed) ∧
    (∀ vs, r.body = none → r.bodyStruct = none → r.bodyValues = some vs →
       resolveBody r env = .ok (some (env.encodeValues vs), ContentTypeURLENCODED)) ∧
    (r.body = none → r.bodyStruct = none → r.bodyValues = none →
       resolveBody r env = .ok (none, r.contentType)) ∧
    (∀ r1 e, validateMethod r = none → validatePathParams r = .ok r1 →
       resolveBody r1 env = .error e → dispatch r env = ⟨.failed e, r1, none, false⟩) := by
  refine ⟨?_, ?_, ?_, ?_, ?_, fun r1 e hm hp hb => dispatch_body_err r r1 env e hm hp hb⟩ <;>
    intros <;> simp_all [resolveBody]

/-- A builder holding both a structured body object (marshalling to
`"J"`) and form values, for the C2 witness. -/
def c2reqBoth : Request :=
  { New "POST" "/u" with bodyStruct := some (some "J"), bodyValues := some [("a", "b")] }

/-- A builder whose structured body object fails to marshal, for the C2
witness. -/
def c2reqBad : Request := { New "POST" "/u" with bodyStruct := some none }

/-- Witness for C2: a builder with both a structured object and form
values uses the structured object as json; a failing marshal is a
dispatch error. -/
theorem C2_bodyPrecedence_witness :
    resolveBody c2reqBoth okEnv = .ok (some "J", ContentTypeJSON) ∧
    dispatch c2reqBad okEnv = ⟨.failed .errMarshalFailed, c2reqBad, none, false⟩ :=
  ⟨(C2_bodyPrecedence c2reqBoth okEnv).2.1 "J" rfl rfl,
   (C2_bodyPrecedence c2reqBad okEnv).2.2.2.2.2
     c2reqBad .errMarshalFailed rfl rfl rfl⟩

/-- The builder of the C1 counterexample: the URL `:a/:b` holds one
occurrence of `/:` but two `:`-prefixed segments, and one value is
supplied. -/
def c1req : Request := { New "GET" ":a/:b" with pathParams := ["x"] }

/-- Counterexample to C1 as stated: `c1req` supplies exactly N = 1
path-parameter values for a URL with N = 1 `/:` placeholders, yet
`Dispatch` does not succeed past path validation with a substituted URL
— the substitution loop reads `pathParams` out of bounds (a Go runtime
panic), because the leading segment `:a` is substituted but not counted
by `strings.Count(url, "/:")`. -/
theorem C1_counterexample :
    countPP c1req.url.data = 1 ∧ c1req.pathParams.length = 1 ∧
    dispatch c1req okEnv = ⟨.panicked, c1req, none, false⟩ :=
  ⟨by decide, by decide, by decide⟩

/-- C1 (amended: URLs whose first `/`-split segment begins with `:` are
excluded): for every URL containing `/:` with N occurrences, supplying
exactly N values substitutes them left-to-right (split on `/`, replace,
rejoin) and replaces the builder's `url`; supplying 0 values fails with
`errNoPathParamValueSet`; any other count fails with
`errPathParamPassedIncorrect`; all failures happen before any request
construction or network I/O. -/
theorem C1_pathParamSubstitution (r : Request) (env : Env)
    (hc : containsPP r.url.data = true)
    (hl : startsColon r.url.data = false) :
    (r.pathParams.length = countPP r.url.data →
       validatePathParams r = .ok { r with url := substitutedURL r } ∧
       (validateMethod r = none → (dispatch r env).finalReq.url = substitutedURL r)) ∧
    (r.pathParams.length = 0 →
       validatePathParams r = .err .errNoPathParamValueSet) ∧
    (0 < r.pathParams.length → r.pathParams.length ≠ countPP r.url.data →
       validatePathParams r = .err .errPathParamPassedIncorrect) ∧
    (∀ e, validateMethod r = none → validatePathParams r = .err e →
       dispatch r env = ⟨.failed e, r, none, false⟩) := by
  refine ⟨?_, ?_, ?_, fun e hm hp => dispatch_path_err r env e hm hp⟩
  · intro hn
    have hok := validatePathParams_ok_subst r hc hl hn
    refine ⟨hok, fun hm => ?_⟩
    have := dispatch_finalReq_url r _ env hm hok
    simpa using this
  · intro h0
    exact validatePathParams_zero r hc h0
  · intro hpos hne
    exact validatePathParams_mismatch r hc (by omega) (fun h => hne h.symm)

/-- The builder of the C1 witness. -/
def c1wreq : Request := { New "GET" "/users/:id" with pathParams := ["42"] }

/-- Witness for C1 (amended) at `/users/:id` with one value: validation
substitutes and rewrites the URL to `/users/42`, also visible on the
builder state after a full `Dispatch`. -/
theorem C1_pathParamSubstitution_witness :
    substitutedURL c1wreq = "/users/42" ∧
    validatePathParams c1wreq = .ok { c1wreq with url := substitutedURL c1wreq } ∧
    (dispatch c1wreq okEnv).finalReq.url = substitutedURL c1wreq ∧
    validatePathParams { c1wreq with pathParams := [] }
      = .err .errNoPathParamValueSet ∧
    validatePathParams { c1wreq with pathParams := ["a", "b"] }
      = .err .errPathParamPassedIncorrect := by
  have h1 := (C1_pathParamSubstitution c1wreq okEnv (by decide) (by decide)).1 (by decide)
  have h0 := (C1_pathParamSubstitution { c1wreq with pathParams := [] } okEnv
    (by decide) (by decide)).2.1 (by decide)
  have h2 := (C1_pathParamSubstitution { c1wreq with pathParams := ["a", "b"] } okEnv
    (by decide) (by decide)).2.2.1 (by decide) (by decide)
  exact ⟨by decide, h1.1, h1.2 (by decide), h0, h2⟩

/-- The builder of the C4 counterexample (same shape as `c1req`). -/
def c4req : Request := { New "GET" ":a/:b" with pathParams := ["x"] }

/-- Counterexample to C4 as stated: `c4req` passes the placeholder-count
check (`/:` occurs, its count equals the number of supplied values), yet
the substitution loop neither consumes exactly that many values nor
raises `errPathParamConflift` — it panics on an out-of-bounds read, an
outcome the claim rules out. -/
theorem C4_counterexample :
    containsPP c4req.url.data = true ∧
    countPP c4req.url.data = c4req.pathParams.length ∧
    validatePathParams c4req = .panicked :=
  ⟨by decide, by decide, by decide⟩

/-- C4 (amended: URLs whose first `/`-split segment begins with `:` are
excluded): when the count checks pass, the substitution loop consumes
exactly the number of supplied values, does not panic, and the
`errPathParamConflift` branch is unreachable. -/
theorem C4_substitutionConsumesAll (r : Request)
    (hc : containsPP r.url.data = true)
    (hl : startsColon r.url.data = false)
    (hn : r.pathParams.length = countPP r.url.data) :
    substSegs (r.pathParams.map String.data) 0 (splitSlash r.url.data)
      = .ok (substituteSegs (r.pathParams.map String.data) (splitSlash r.url.data))
            r.pathParams.length ∧
    validatePathParams r ≠ .err .errPathParamConflift ∧
    validatePathParams r ≠ .panicked := by
  have hcp : (splitSlash r.url.data).countP startsColon = countPP r.url.data := by
    rw [countP_splitSlash, hl]; simp
  have hsub := substSegs_ok (splitSlash r.url.data) (r.pathParams.map String.data) 0
    (by simp only [List.length_map, Nat.zero_add, hcp]; omega)
  rw [hcp, List.drop_zero, Nat.zero_add] at hsub
  refine ⟨by rw [hsub, hn], ?_, ?_⟩ <;>
    rw [validatePathParams_ok_subst r hc hl hn] <;> intro hx <;> cases hx

/-- Witness for C4 (amended) at `/t/:x/:y` with two values. -/
theorem C4_substitutionConsumesAll_witness :
    substSegs (["u", "v"].map String.data) 0 (splitSlash ("/t/:x/:y").data)
      = .ok (substituteSegs (["u", "v"].map String.data) (splitSlash ("/t/:x/:y").data)) 2 ∧
    validatePathParams { New "GET" "/t/:x/:y" with pathParams := ["u", "v"] } ≠ .panicked := by
  have h := C4_substitutionConsumesAll { New "GET" "/t/:x/:y" with pathParams := ["u", "v"] }
    (by decide) (by decide) (by decide)
  exact ⟨by simpa using h.1, h.2.2⟩

/-- Counterexample to C5 as stated: for the URL `:a/:b` (which passes
the count checks with one supplied value) the number of `/`-split
segments beginning with `:` (two) exceeds the count of `/:` occurrences
(one), and the substitution loop reads `pathParams` at index 1 with a
list of length 1: a Go index-out-of-range panic. -/
theorem C5_counterexample :
    countPP (":a/:b").data < (splitSlash (":a/:b").data).countP startsColon ∧
    ([['x']] : List (List Char)).length = countPP (":a/:b").data ∧
    substSegs [['x']] 0 (splitSlash (":a/:b").data) = .panicked :=
  ⟨by decide, by decide, by decide⟩

/-- C5 (amended: URLs whose first `/`-split segment begins with `:` are
excluded): the number of `:`-prefixed segments never exceeds the `/:`
count, so whenever the count checks pass the substitution loop reads
`pathParams` only at indices below its length, and `validatePathParams`
cannot panic. -/
theorem C5_substitutionInBounds (r : Request)
    (hl : startsColon r.url.data = false) :
    (splitSlash r.url.data).countP startsColon ≤ countPP r.url.data ∧
    (∀ params : List (List Char), params.length = countPP r.url.data →
       substSegs params 0 (splitSlash r.url.data) ≠ .panicked) ∧
    validatePathParams r ≠ .panicked := by
  have hcp : (splitSlash r.url.data).countP startsColon = countPP r.url.data := by
    rw [countP_splitSlash, hl]; simp
  refine ⟨le_of_eq hcp, fun params hlen => ?_, validatePathParams_no_panic r hl⟩
  have := substSegs_ok (splitSlash r.url.data) params 0 (by omega)
  rw [this]
  intro hx
  cases hx

/-- Witness for C5 (amended) at `/a/:b`. -/
theorem C5_substitutionInBounds_witness :
    (splitSlash ("/a/:b").data).countP startsColon ≤ countPP ("/a/:b").data ∧
    substSegs [['v']] 0 (splitSlash ("/a/:b").data) ≠ .panicked ∧
    validatePathParams { New "GET" "/a/:b" with pathParams := ["v"] } ≠ .panicked := by
  have h := C5_substitutionInBounds { New "GET" "/a/:b" with pathParams := ["v"] } (by decide)
  exact ⟨h.1, h.2.1 [['v']] (by decide), h.2.2⟩

/-- C6: with a non-empty query mapping, `Dispatch` sets the raw query
to the encoded string built from the mapping; with `unescapeQueryParams`
the already-encoded string is additionally percent-decoded
(encode-then-decode, never skip-encoding), and a decode failure is
returned as `errQueryUnescapeFailed` before any network I/O. -/
theorem C6_queryEncoding (r : Request) (env : Env) (h : HttpRequest)
    (hq : 0 < r.queryParams.length) :
    (r.unescapeQueryParams = false →
       applyQuery r env h = .ok { h with rawQuery := env.encodeQuery h.rawQuery r.queryParams }) ∧
    (∀ s, r.unescapeQueryParams = true →
       env.queryUnescape (env.encodeQuery h.rawQuery r.queryParams) = some s →
       applyQuery r env h = .ok { h with rawQuery := s }) ∧
    (r.unescapeQueryParams = true →
       env.queryUnescape (env.encodeQuery h.rawQuery r.queryParams) = none →
       applyQuery r env h = .error .errQueryUnescapeFailed) ∧
    (∀ r1 b ct, validateMethod r = none → validatePathParams r = .ok r1 →
       resolveBody r1 env = .ok (b, ct) →
       env.newRequestOk r1.method r1.url = true →
       applyQuery r1 env (decorate r1 ct (mkHreq r1 env b)) = .error .errQueryUnescapeFailed →
       dispatch r env = ⟨.failed .errQueryUnescapeFailed, r1, none, false⟩) := by
  refine ⟨?_, ?_, ?_,
    fun r1 b ct hm hp hb hn ha => dispatch_applyQuery_err r r1 env b ct _ hm hp hb hn ha⟩
  · intro hu
    unfold applyQuery
    rw [if_pos hq, if_neg (by simp [hu])]
  · intro s hu hue
    unfold applyQuery
    rw [if_pos hq, if_pos hu, hue]
  · intro hu hue
    unfold applyQuery
    rw [if_pos hq, if_pos hu, hue]

/-- The builder of the C6 witness: one query parameter and unescaping
requested. -/
def c6req : Request :=
  { New "GET" "/a" with queryParams := [("k", "v")], unescapeQueryParams := true }

/-- Witness for C6: under an environment whose `url.QueryUnescape`
fails, `Dispatch` fails with `errQueryUnescapeFailed` without touching
the network; under `okEnv` the raw query is the encoded mapping. -/
theorem C6_queryEncoding_witness :
    dispatch c6req unescapeFailEnv
      = ⟨.failed .errQueryUnescapeFailed, c6req, none, false⟩ ∧
    applyQuery { c6req with unescapeQueryParams := false } okEnv (mkHreq c6req okEnv none)
      = .ok { mkHreq c6req okEnv none with rawQuery := "k=v" } := by
  constructor
  · exact (C6_queryEncoding c6req unescapeFailEnv (mkHreq c6req unescapeFailEnv none)
      (by decide)).2.2.2 c6req none "" rfl rfl rfl rfl rfl
  · have h := (C6_queryEncoding { c6req with unescapeQueryParams := false } okEnv
      (mkHreq c6req okEnv none) (by decide)).1 rfl
    simpa using h

/-- C7: the decoration step adds an `Authorization` header exactly when
username or password is non-empty, valued `Basic ` followed by the
standard base64 of `username ++ ":" ++ password` (single colon join,
also for empty sides); whenever `Dispatch` builds a wire request under
that condition, the header is on it. -/
theorem C7_basicAuthHeader (r : Request) (ct : String) (h : HttpRequest) :
    ((decorate r ct h).headers
       = h.headers
         ++ (if r.username ≠ "" ∨ r.password ≠ "" then
               [("Authorization", "Basic " ++ basicAuth r.username r.password)] else [])
         ++ (if ct ≠ "" then [("Content-Type", ct)] else [])
         ++ r.headers) ∧
    basicAuth r.username r.password
      = base64Encode (utf8Bytes (r.username ++ ":" ++ r.password)) ∧
    (∀ env h2, (dispatch r env).hreq = some h2 →
       (r.username ≠ "" ∨ r.password ≠ "") →
       ("Authorization", "Basic " ++ basicAuth r.username r.password) ∈ h2.headers) := by
  refine ⟨decorate_headers r ct h, rfl, ?_⟩
  intro env h2 hh hcond
  obtain ⟨r1, b, ct', hm, hp, hb, hn, ha⟩ := dispatch_hreq_some r env h2 hh
  have hf := validatePathParams_fields r r1 hp
  have hu : r1.username = r.username := by rw [hf]
  have hpw : r1.password = r.password := by rw [hf]
  have hhd := applyQuery_headers r1 env _ h2 ha
  rw [hhd, decorate_headers]
  have hcond1 : r1.username ≠ "" ∨ r1.password ≠ "" := by rw [hu, hpw]; exact hcond
  rw [if_pos hcond1, hu, hpw]
  simp [mkHreq]

/-- The builder of the C7 witness. -/
def c7req : Request := { New "POST" "/u" with username := "foo", password := "foopazz" }

/-- Witness for C7: a full `Dispatch` with credentials `foo`/`foopazz`
carries `Authorization: Basic Zm9vOmZvb3Bheno=` on the wire request. -/
theorem C7_basicAuthHeader_witness :
    basicAuth "foo" "foopazz" = "Zm9vOmZvb3Bheno=" ∧
    (dispatch c7req okEnv).hreq = some ((dispatch c7req okEnv).hreq.getD (mkHreq c7req okEnv none)) ∧
    ("Authorization", "Basic " ++ basicAuth "foo" "foopazz")
      ∈ ((dispatch c7req okEnv).hreq.getD (mkHreq c7req okEnv none)).headers := by
  refine ⟨by decide, by decide, ?_⟩
  exact (C7_basicAuthHeader c7req "" (mkHreq c7req okEnv none)).2.2 okEnv
    ((dispatch c7req okEnv).hreq.getD (mkHreq c7req okEnv none)) (by decide)
    (by decide)

/-- C8: `DispatchScan` with a nil target returns
`errorResponseStructIsNil` immediately — no validation, no network I/O,
no builder mutation; with a non-nil target it delegates to `Dispatch`,
propagates a dispatch error unchanged, and wraps a json decode failure
as `errDecodeFailed` carrying the response status code. -/
theorem C8_dispatchScan (r : Request) (env : Env) :
    dispatchScan r env none = ⟨.failed .errorResponseStructIsNil, r, false⟩ ∧
    (∀ e, (dispatch r env).out = .failed e →
       dispatchScan r env (some ())
         = ⟨.failed e, (dispatch r env).finalReq, (dispatch r env).netCalled⟩) ∧
    (∀ res, (dispatch r env).out = .succeeded res → env.decode res.body = false →
       dispatchScan r env (some ())
         = ⟨.failed (.errDecodeFailed res.statusCode), (dispatch r env).finalReq,
            (dispatch r env).netCalled⟩) ∧
    (∀ res, (dispatch r env).out = .succeeded res → env.decode res.body = true →
       dispatchScan r env (some ())
         = ⟨.succeeded, (dispatch r env).finalReq, (dispatch r env).netCalled⟩) := by
  refine ⟨rfl, ?_, ?_, ?_⟩
  · intro e he
    rcases ht : dispatch r env with ⟨out, fr, hq, nc⟩
    rw [ht] at he
    simp only [] at he
    subst he
    simp [dispatchScan, ht]
  · intro res hres hdec
    rcases ht : dispatch r env with ⟨out, fr, hq, nc⟩
    rw [ht] at hres
    simp only [] at hres
    subst hres
    simp [dispatchScan, ht, hdec]
  · intro res hres hdec
    rcases ht : dispatch r env with ⟨out, fr, hq, nc⟩
    rw [ht] at hres
    simp only [] at hres
    subst hres
    simp [dispatchScan, ht, hdec]

/-- Witness for C8: the nil-target short-circuit on a concrete builder,
error propagation for an invalid method, and the status-code-wrapping
decode failure under `decodeFailEnv`. -/
theorem C8_dispatchScan_witness :
    dispatchScan (New "GET" "/x") decodeFailEnv none
      = ⟨.failed .errorResponseStructIsNil, New "GET" "/x", false⟩ ∧
    dispatchScan (New "bad" "/x") decodeFailEnv (some ())
      = ⟨.failed .errMethodUnknown, (dispatch (New "bad" "/x") decodeFailEnv).finalReq,
         (dispatch (New "bad" "/x") decodeFailEnv).netCalled⟩ ∧
    dispatchScan (New "GET" "/x") decodeFailEnv (some ())
      = ⟨.failed (.errDecodeFailed 200), (dispatch (New "GET" "/x") decodeFailEnv).finalReq,
         (dispatch (New "GET" "/x") decodeFailEnv).netCalled⟩ :=
  ⟨(C8_dispatchScan (New "GET" "/x") decodeFailEnv).1,
   (C8_dispatchScan (New "bad" "/x") decodeFailEnv).2.1 .errMethodUnknown (by decide),
   (C8_dispatchScan (New "GET" "/x") decodeFailEnv).2.2.1 ⟨200, "ok"⟩ (by decide) rfl⟩

/-- C9: with no caller-supplied client, `Dispatch` builds one whose
timeout is the caller timeout when positive and the fixed 30-second
`defaultTimeout` otherwise, over the proxy transport when a proxy URL is
set (a proxy parse failure is a dispatch error); a caller-supplied
client is used as-is, for every environment and proxy/timeout setting. -/
theorem C9_clientSelection (r : Request) (env : Env) :
    (r.httpcli = none → r.proxyURL = "" →
       selectClient r env
         = ({ r with transport := .defaultTransport, httpcli := some ⟨.defaultTransport, if 0 < r.timeout then r.timeout else defaultTimeout⟩ },
            .ok ⟨.defaultTransport, if 0 < r.timeout then r.timeout else defaultTimeout⟩)) ∧
    (r.httpcli = none → r.proxyURL ≠ "" → env.parseProxyOk r.proxyURL = true →
       selectClient r env
         = ({ r with transport := .proxyTransport r.proxyURL, httpcli := some ⟨.proxyTransport r.proxyURL, if 0 < r.timeout then r.timeout else defaultTimeout⟩ },
            .ok ⟨.proxyTransport r.proxyURL,
                 if 0 < r.timeout then r.timeout else defaultTimeout⟩)) ∧
    (r.httpcli = none → r.proxyURL ≠ "" → env.parseProxyOk r.proxyURL = false →
       selectClient r env
         = ({ r with transport := .defaultTransport }, .error .errProxyParseFailed)) ∧
    (∀ c, r.httpcli = some c →
       selectClient r env = ({ r with transport := .defaultTransport }, .ok c)) := by
  refine ⟨?_, ?_, ?_, ?_⟩
  · intro hc hp
    simp [selectClient, mkClient, hc, hp]
  · intro hc hp hok
    simp [selectClient, mkClient, hc, hp, hok]
  · intro hc hp hok
    simp [selectClient, mkClient, hc, hp, hok]
  · intro c hc
    simp [selectClient, mkClient, hc]

/-- The builder of the C9 witness: no client, a proxy and a positive
timeout. -/
def c9req : Request := { New "GET" "/x" with proxyURL := "http://p", timeout := 5 }

/-- Witness for C9: the built client uses the proxy transport and the
caller timeout; with `timeout = 0` it uses `defaultTimeout`; a
caller-supplied client is returned as-is. -/
theorem C9_clientSelection_witness :
    selectClient c9req okEnv
      = ({ c9req with transport := .proxyTransport "http://p", httpcli := some ⟨.proxyTransport "http://p", 5⟩ },
         .ok ⟨.proxyTransport "http://p", 5⟩) ∧
    selectClient (New "GET" "/x") okEnv
      = ({ New "GET" "/x" with transport := .defaultTransport, httpcli := some ⟨.defaultTransport, defaultTimeout⟩ },
         .ok ⟨.defaultTransport, defaultTimeout⟩) ∧
    selectClient { c9req with httpcli := some ⟨.nilTransport, 7⟩ } okEnv
      = ({ c9req with httpcli := some ⟨.nilTransport, 7⟩, transport := .defaultTransport },
         .ok ⟨.nilTransport, 7⟩) := by
  have h1 := (C9_clientSelection c9req okEnv).2.1 rfl (by decide) rfl
  have h2 := (C9_clientSelection (New "GET" "/x") okEnv).1 rfl rfl
  have h3 := (C9_clientSelection { c9req with httpcli := some ⟨.nilTransport, 7⟩ } okEnv).2.2.2
    ⟨.nilTransport, 7⟩ rfl
  refine ⟨by simpa using h1, by simpa using h2, by simpa using h3⟩

end Dispatch
